import Mathlib

/-!
Verification of the natural-language specification of `porta_pty.c`
(Porta.Pty native PTY shim) against a shallow embedding of the code.

The C file exports `pty_spawn`, `pty_resize`, `pty_kill`, `pty_waitpid`,
`pty_close` and `pty_get_errno`.  The embedding below models:

* C strings as `List Char` (NUL-free contents of a NUL-terminated string);
* the process environment as a lookup function `List Char → Option (List Char)`
  (the observable behaviour of libc `getenv` / `setenv` / `unsetenv`);
* the OS-dependent outcomes of `forkpty`, `chdir`, `execvp` and `ioctl`
  as explicit oracle parameters;
* the side effects performed by the child branch as an explicit event trace.

Machine integers carry no arithmetic in this code, so they are modelled as
`Nat` / `Int` directly.
-/

namespace PortaPty

/-! ## Data structures crossing the boundary (lines 40-67 of porta_pty.c) -/

/-- Mirror of `pty_termios_t` (porta_pty.c lines 40-48): four mode-flag
words, a 32-slot control-character array, two baud-rate words.
`c_cc` is a C array `unsigned char c_cc[32]`; the embedding uses a list
whose length is 32 by the struct layout (carried as a hypothesis). -/
structure pty_termios_t where
  c_iflag : Nat
  c_oflag : Nat
  c_cflag : Nat
  c_lflag : Nat
  c_cc : List Nat
  c_ispeed : Nat
  c_ospeed : Nat
deriving DecidableEq

/-- Mirror of `pty_winsize_t` (porta_pty.c lines 53-58). -/
structure pty_winsize_t where
  ws_row : Nat
  ws_col : Nat
  ws_xpixel : Nat
  ws_ypixel : Nat
deriving DecidableEq

/-- Mirror of `pty_spawn_result_t` (porta_pty.c lines 63-67).
`master_fd` and `pid` are C `int`s (file descriptor / pid or `-1`);
`error` holds an `errno` value, which is non-negative. -/
structure pty_spawn_result_t where
  master_fd : Int
  pid : Int
  error : Nat
deriving DecidableEq

/-- The OS-native `struct termios`.  Besides the fields that
`pty_termios_t` mirrors it has the `c_line` field (line discipline) and a
control-character array of platform capacity `NCCS`; `NCCS` is a parameter
of the embedding, never assumed to be a fixed constant. -/
structure termios where
  c_iflag : Nat
  c_oflag : Nat
  c_cflag : Nat
  c_lflag : Nat
  c_line : Nat
  c_cc : List Nat
  c_ispeed : Nat
  c_ospeed : Nat
deriving DecidableEq

/-- The OS-native `struct winsize`. -/
structure winsize where
  ws_row : Nat
  ws_col : Nat
  ws_xpixel : Nat
  ws_ypixel : Nat
deriving DecidableEq

/-- `memset(&term, 0, sizeof(term))` (porta_pty.c line 102): the native
termios with every byte zero, for a platform whose `c_cc` capacity is
`nccs`. -/
def zeroTermios (nccs : Nat) : termios :=
  { c_iflag := 0, c_oflag := 0, c_cflag := 0, c_lflag := 0,
    c_line := 0, c_cc := List.replicate nccs 0, c_ispeed := 0, c_ospeed := 0 }

/-- `memcpy(dst, src, n)` on byte arrays: the first `n` slots come from
`src`, the rest of `dst` is untouched. -/
def memcpyBytes (n : Nat) (src dst : List Nat) : List Nat :=
  src.take n ++ dst.drop n

/-- `cfsetispeed(&term, speed)`: dedicated setter for the input baud rate. -/
def cfsetispeed (t : termios) (speed : Nat) : termios :=
  { t with c_ispeed := speed }

/-- `cfsetospeed(&term, speed)`: dedicated setter for the output baud rate. -/
def cfsetospeed (t : termios) (speed : Nat) : termios :=
  { t with c_ospeed := speed }

/-- Translation of a caller-supplied `pty_termios_t` into the OS-native
`struct termios`, exactly as porta_pty.c lines 101-114: zero the native
struct, copy the four flag words, copy `min (sizeof term.c_cc) 32`
control characters, set the two baud rates via the dedicated setters. -/
def translateTermios (nccs : Nat) (s : pty_termios_t) : termios :=
  let term0 := zeroTermios nccs
  let term1 := { term0 with
    c_iflag := s.c_iflag, c_oflag := s.c_oflag,
    c_cflag := s.c_cflag, c_lflag := s.c_lflag }
  let cc_size := min nccs 32
  let term2 := { term1 with c_cc := memcpyBytes cc_size s.c_cc term1.c_cc }
  cfsetospeed (cfsetispeed term2 s.c_ispeed) s.c_ospeed

/-- Translation of `pty_winsize_t` into the native `struct winsize`
(porta_pty.c lines 123-128): a field-by-field copy. -/
def translateWinsize (w : pty_winsize_t) : winsize :=
  { ws_row := w.ws_row, ws_col := w.ws_col,
    ws_xpixel := w.ws_xpixel, ws_ypixel := w.ws_ypixel }

/-! ## Environment model

The process environment is modelled extensionally, as the function
`getenv` computes: a map from keys to optional values.  `setenv` with
overwrite, `setenv` without overwrite, and `unsetenv` are the libc calls
the child branch makes. -/

/-- The observable process environment: `getenv`. -/
def EnvMap : Type := List Char → Option (List Char)

/-- The empty environment. -/
def emptyEnv : EnvMap := fun _ => none

/-- `setenv(k, v, 1)`: set `k` to `v`, overwriting an existing binding. -/
def setenvOverwrite (env : EnvMap) (k v : List Char) : EnvMap :=
  fun q => if q = k then some v else env q

/-- `setenv(k, v, 0)`: set `k` to `v` only when `k` is unbound. -/
def setenvKeep (env : EnvMap) (k v : List Char) : EnvMap :=
  if env k = none then setenvOverwrite env k v else env

/-- `unsetenv(k)`: remove any binding of `k`. -/
def unsetenvF (env : EnvMap) (k : List Char) : EnvMap :=
  fun q => if q = k then none else env q

/-- The key `"TERM"`. -/
def termKey : List Char := "TERM".toList

/-- The default terminal type `"xterm-256color"` (porta_pty.c line 156). -/
def defaultTermVal : List Char := "xterm-256color".toList

/-- Child step at porta_pty.c lines 154-157:
`if (getenv("TERM") == NULL) setenv("TERM", "xterm-256color", 0);`. -/
def applyTermDefault (env : EnvMap) : EnvMap :=
  if env termKey = none then setenvKeep env termKey defaultTermVal else env

/-- `strchr(entry, '=')` followed by the key/value split of porta_pty.c
lines 163-170: `some (key, value)` splits on the FIRST `'='`; `none`
when the entry contains no `'='`. -/
def splitFirstEq : List Char → Option (List Char × List Char)
  | [] => none
  | c :: rest =>
      if c = '=' then some ([], rest)
      else
        match splitFirstEq rest with
        | some kv => some (c :: kv.1, kv.2)
        | none => none

/-! ## The child branch as an event trace -/

/-- Side-effecting calls the child branch can make, in program order. -/
inductive Ev where
  | chdir (dir : List Char)
  | setenv (key value : List Char) (overwrite : Bool)
  | unsetenv (key : List Char)
  | exec (file : List Char) (argv : List (List Char))
  | exit (code : Nat)
deriving DecidableEq

/-- Processing of one `envp` entry (porta_pty.c lines 162-178), returning
the updated environment together with the libc calls made:
no `'='` means the entry is skipped; an empty value means `unsetenv`;
otherwise `setenv` with overwrite. -/
def applyEnvEntry (env : EnvMap) (entry : List Char) : EnvMap × List Ev :=
  match splitFirstEq entry with
  | none => (env, [])
  | some kv =>
      if kv.2 = [] then (unsetenvF env kv.1, [Ev.unsetenv kv.1])
      else (setenvOverwrite env kv.1 kv.2, [Ev.setenv kv.1 kv.2 true])

/-- The `for` loop over `envp` (porta_pty.c lines 161-179): entries are
applied in list order. -/
def applyEnvList : EnvMap → List (List Char) → EnvMap × List Ev
  | env, [] => (env, [])
  | env, e :: rest =>
      let p1 := applyEnvEntry env e
      let p2 := applyEnvList p1.1 rest
      (p2.1, p1.2 ++ p2.2)

/-- How the child terminates.  `returned` is the outcome the code must
never produce: control flowing out of the child branch back into the
caller of `pty_spawn`.  The faithful translation of the child branch is
proved never to yield it. -/
inductive ChildOutcome where
  | execed (env : EnvMap) (cwd : List Char)
  | exited (code : Nat)
  | returned

/-- The part of the child branch after the working-directory step
(porta_pty.c lines 154-186): TERM default, envp overrides, `execvp`,
and `_exit(errno)` if `execvp` fails (`execErr = some errno`). -/
def childAfterChdir (file : List Char) (argv : List (List Char))
    (envp : Option (List (List Char))) (env0 : EnvMap) (cwd : List Char)
    (execErr : Option Nat) : List Ev × ChildOutcome :=
  let termEvs :=
    if env0 termKey = none then [Ev.setenv termKey defaultTermVal false] else []
  let env1 := applyTermDefault env0
  let entries := match envp with | some l => l | none => []
  let p := applyEnvList env1 entries
  match execErr with
  | some e => (termEvs ++ p.2 ++ [Ev.exec file argv, Ev.exit e], ChildOutcome.exited e)
  | none => (termEvs ++ p.2 ++ [Ev.exec file argv], ChildOutcome.execed p.1 cwd)

/-- The whole child branch (porta_pty.c lines 141-186).  `chdirErr` is the
oracle for the `chdir` call: `some e` means `chdir` would fail with
`errno = e`.  The branch changes directory only when `working_dir` is
non-null and non-empty, and `_exit(errno)`s on `chdir` failure. -/
def childRun (file : List Char) (argv : List (List Char))
    (envp : Option (List (List Char))) (working_dir : Option (List Char))
    (env0 : EnvMap) (cwd0 : List Char)
    (chdirErr : Option Nat) (execErr : Option Nat) : List Ev × ChildOutcome :=
  match working_dir with
  | some d =>
      if d = [] then childAfterChdir file argv envp env0 cwd0 execErr
      else
        match chdirErr with
        | some e => ([Ev.chdir d, Ev.exit e], ChildOutcome.exited e)
        | none =>
            let p := childAfterChdir file argv envp env0 d execErr
            (Ev.chdir d :: p.1, p.2)
  | none => childAfterChdir file argv envp env0 cwd0 execErr

/-! ## pty_spawn -/

/-- Outcome of the `forkpty` call: failure with an `errno`, or success,
in which case the parent observes the master descriptor and the child
pid while the child branch runs in the new process. -/
inductive ForkOutcome where
  | fail (errno : Nat)
  | ok (masterFd : Int) (pid : Int)
deriving DecidableEq

/-- The POSIX contract of `forkpty`: on failure `errno` is nonzero; on
success the filled-in master descriptor is a valid (non-negative) file
descriptor and the pid returned to the parent is positive. -/
def forkContract : ForkOutcome → Prop
  | ForkOutcome.fail e => e ≠ 0
  | ForkOutcome.ok mfd pid => 0 ≤ mfd ∧ 0 < pid

/-- Everything observable about one `pty_spawn` call: the returned
result structure, the arguments handed to `forkpty` (which applies the
termios/winsize to the slave side before the child runs), the child
process's trace and outcome (absent when the fork failed), and the
parent-side environment, working directory, and side-effect trace after
the call. -/
structure SpawnOutcome where
  result : pty_spawn_result_t
  termArg : Option termios
  wsArg : Option winsize
  child : Option (List Ev × ChildOutcome)
  parentEnv : EnvMap
  parentCwd : List Char
  parentTrace : List Ev

/-- Shallow embedding of `pty_spawn` (porta_pty.c lines 87-195).
`nccs` is the platform's `NCCS`; `env0` / `cwd0` are the calling
process's environment and working directory; `fork`, `chdirErr`,
`execErr` are the OS oracles for the three fallible calls. -/
def pty_spawn (nccs : Nat) (file : List Char) (argv : List (List Char))
    (envp : Option (List (List Char))) (working_dir : Option (List Char))
    (termios_settings : Option pty_termios_t)
    (winsize_settings : Option pty_winsize_t)
    (env0 : EnvMap) (cwd0 : List Char)
    (fork : ForkOutcome) (chdirErr : Option Nat) (execErr : Option Nat) :
    SpawnOutcome :=
  let term_ptr := match termios_settings with
    | some t => some (translateTermios nccs t)
    | none => none
  let ws_ptr := match winsize_settings with
    | some w => some (translateWinsize w)
    | none => none
  match fork with
  | ForkOutcome.fail e =>
      { result := { master_fd := -1, pid := -1, error := e },
        termArg := term_ptr, wsArg := ws_ptr, child := none,
        parentEnv := env0, parentCwd := cwd0, parentTrace := [] }
  | ForkOutcome.ok mfd pid =>
      { result := { master_fd := mfd, pid := pid, error := 0 },
        termArg := term_ptr, wsArg := ws_ptr,
        child := some (childRun file argv envp working_dir env0 cwd0 chdirErr execErr),
        parentEnv := env0, parentCwd := cwd0, parentTrace := [] }

/-! ## pty_resize -/

/-- The `TIOCSWINSZ` ioctl request code. -/
def TIOCSWINSZ : Nat := 0x5414

/-- One `ioctl` call as issued by `pty_resize`. -/
structure IoctlCall where
  fd : Int
  req : Nat
  arg : winsize
deriving DecidableEq

/-- Kernel semantics of `ioctl(fd, TIOCSWINSZ, &ws)` on a PTY whose
current size is `cur`: on success the size becomes `ws` and `0` is
returned; on failure the size is unchanged and `-1` is returned. -/
def ioctlSetWinsize (cur : winsize) (ok : Bool) (call : IoctlCall) :
    winsize × Int :=
  if ok then (call.arg, 0) else (cur, -1)

/-- Everything observable about one `pty_resize` call. -/
structure ResizeOutcome where
  ret : Int
  kernelSize : winsize
  calls : List IoctlCall
deriving DecidableEq

/-- Shallow embedding of `pty_resize` (porta_pty.c lines 208-217):
build `ws = {rows, cols, 0, 0}` and issue a single
`ioctl(master_fd, TIOCSWINSZ, &ws)`, returning its status.  `cur` is the
PTY's current kernel-side size and `ok` the oracle for the ioctl. -/
def pty_resize (master_fd : Int) (rows cols : Nat)
    (cur : winsize) (ok : Bool) : ResizeOutcome :=
  let ws : winsize := { ws_row := rows, ws_col := cols, ws_xpixel := 0, ws_ypixel := 0 }
  let call : IoctlCall := { fd := master_fd, req := TIOCSWINSZ, arg := ws }
  let p := ioctlSetWinsize cur ok call
  { ret := p.2, kernelSize := p.1, calls := [call] }

end PortaPty

namespace PortaPty

/-! ## Claim theorems -/

/-- C1: a `pty_spawn` result is never a partial success: when `forkpty`
fails, the result is `{master_fd := -1, pid := -1, error := errno}` with a
nonzero error; when it succeeds, the result is
`{master_fd, pid, error := 0}` with both `master_fd ≥ 0` and `pid ≥ 0`. -/
theorem pty_spawn_never_partial_success
    (nccs : Nat) (file : List Char) (argv : List (List Char))
    (envp : Option (List (List Char))) (working_dir : Option (List Char))
    (ts : Option pty_termios_t) (ws : Option pty_winsize_t)
    (env0 : EnvMap) (cwd0 : List Char)
    (fork : ForkOutcome) (chdirErr execErr : Option Nat)
    (hfork : forkContract fork) :
    (∀ e, fork = ForkOutcome.fail e →
        (pty_spawn nccs file argv envp working_dir ts ws env0 cwd0 fork chdirErr execErr).result
          = { master_fd := -1, pid := -1, error := e } ∧ e ≠ 0) ∧
    (∀ mfd pid, fork = ForkOutcome.ok mfd pid →
        (pty_spawn nccs file argv envp working_dir ts ws env0 cwd0 fork chdirErr execErr).result
          = { master_fd := mfd, pid := pid, error := 0 } ∧ 0 ≤ mfd ∧ 0 ≤ pid) := by
  constructor
  · rintro e rfl
    exact ⟨rfl, hfork⟩
  · rintro mfd pid rfl
    exact ⟨rfl, hfork.1, le_of_lt hfork.2⟩

/-- Witness for C1 at a concrete successful fork. -/
theorem pty_spawn_never_partial_success_witness :
    (pty_spawn 32 ("sh".toList) [] none none none none emptyEnv []
        (ForkOutcome.ok 3 100) none none).result
      = { master_fd := 3, pid := 100, error := 0 } ∧ (0 : Int) ≤ 3 ∧ (0 : Int) ≤ 100 :=
  (pty_spawn_never_partial_success 32 ("sh".toList) [] none none none none emptyEnv []
    (ForkOutcome.ok 3 100) none none ⟨by decide, by decide⟩).2 3 100 rfl

/-- C7: the parent path of `pty_spawn` mutates nothing: whatever the fork
outcome, the parent's environment and working directory are unchanged
when `pty_spawn` returns, and the parent performs no side-effecting call
(all `setenv`/`unsetenv`/`chdir` calls are confined to the child branch). -/
theorem pty_spawn_parent_frame
    (nccs : Nat) (file : List Char) (argv : List (List Char))
    (envp : Option (List (List Char))) (working_dir : Option (List Char))
    (ts : Option pty_termios_t) (ws : Option pty_winsize_t)
    (env0 : EnvMap) (cwd0 : List Char)
    (fork : ForkOutcome) (chdirErr execErr : Option Nat) :
    (pty_spawn nccs file argv envp working_dir ts ws env0 cwd0 fork chdirErr execErr).parentEnv = env0 ∧
    (pty_spawn nccs file argv envp working_dir ts ws env0 cwd0 fork chdirErr execErr).parentCwd = cwd0 ∧
    (pty_spawn nccs file argv envp working_dir ts ws env0 cwd0 fork chdirErr execErr).parentTrace = [] := by
  cases fork <;> exact ⟨rfl, rfl, rfl⟩

/-- C8: `pty_resize` issues exactly one `ioctl(master_fd, TIOCSWINSZ, ws)`
with `ws_row = rows`, `ws_col = cols` and both pixel fields zero, returns
that call's status (`0` on success, `-1` on failure), and on failure the
kernel-side size is unchanged. -/
theorem pty_resize_single_ioctl (master_fd : Int) (rows cols : Nat)
    (cur : winsize) (ok : Bool) :
    (pty_resize master_fd rows cols cur ok).calls
        = [{ fd := master_fd, req := TIOCSWINSZ,
             arg := { ws_row := rows, ws_col := cols, ws_xpixel := 0, ws_ypixel := 0 } }] ∧
    (pty_resize master_fd rows cols cur ok).ret = (if ok then 0 else -1) ∧
    (pty_resize master_fd rows cols cur ok).kernelSize
        = (if ok then { ws_row := rows, ws_col := cols, ws_xpixel := 0, ws_ypixel := 0 } else cur) := by
  cases ok <;> exact ⟨rfl, rfl, rfl⟩

end PortaPty

namespace PortaPty

/-! ## Environment override semantics: helper lemmas -/

/-- The override that entry `e` denotes for key `q`: `some v` when `e`
splits on its first `'='` into exactly key `q` and value `v`, otherwise
`none`. -/
def parsedFor (q e : List Char) : Option (List Char) :=
  match splitFirstEq e with
  | some kv => if kv.1 = q then some kv.2 else none
  | none => none

/-- The value portion of the LAST entry of `entries` whose parsed key is
`q`, if any. -/
def lastFor (q : List Char) : List (List Char) → Option (List Char)
  | [] => none
  | e :: rest =>
      match lastFor q rest with
      | some v => some v
      | none => parsedFor q e

/-- Restatement of the specification text for the override loop: later entries
for the same key win; an empty value portion means the key is absent;
a key with no entry keeps its prior binding. -/
def envOverrideSpec (env : EnvMap) (entries : List (List Char)) (q : List Char) :
    Option (List Char) :=
  match lastFor q entries with
  | some v => if v = [] then none else some v
  | none => env q

theorem applyEnvEntry_fst_apply (env : EnvMap) (e q : List Char) :
    (applyEnvEntry env e).1 q =
      (match parsedFor q e with
       | some v => if v = [] then none else some v
       | none => env q) := by
  rcases h : splitFirstEq e with _ | kv
  · simp [applyEnvEntry, parsedFor, h]
  · by_cases hq : kv.1 = q
    · subst hq
      by_cases hv : kv.2 = [] <;>
        simp [applyEnvEntry, parsedFor, h, hv, unsetenvF, setenvOverwrite]
    · have hq2 : ¬ q = kv.1 := fun hh => hq hh.symm
      by_cases hv : kv.2 = [] <;>
        simp [applyEnvEntry, parsedFor, h, hv, unsetenvF, setenvOverwrite, hq, hq2]

theorem applyEnvList_fst_apply (entries : List (List Char)) (env : EnvMap)
    (q : List Char) :
    (applyEnvList env entries).1 q = envOverrideSpec env entries q := by
  induction entries generalizing env with
  | nil => rfl
  | cons e rest ih =>
      have hstep : (applyEnvList env (e :: rest)).1
          = (applyEnvList (applyEnvEntry env e).1 rest).1 := rfl
      rw [hstep, ih]
      rcases h : lastFor q rest with _ | v
      · simp [envOverrideSpec, lastFor, h, applyEnvEntry_fst_apply]
      · simp [envOverrideSpec, lastFor, h]

/-- C3: the child applies a non-null `envp` in list order, splitting each
entry on its first `'='` — empty value means `unsetenv`, non-empty means
overwriting `setenv` — so the resulting environment agrees at every key
with the later-entries-win specification; in particular after
`["FOO=bar", "FOO="]` the key `FOO` is absent. -/
theorem envp_overrides_later_entry_wins (env : EnvMap)
    (entries : List (List Char)) (q : List Char) :
    (applyEnvList env entries).1 q = envOverrideSpec env entries q ∧
    (applyEnvList env ["FOO=bar".toList, "FOO=".toList]).1 ("FOO".toList) = none := by
  refine ⟨applyEnvList_fst_apply entries env q, rfl⟩

/-- C9: an `envp` entry with no `'='` is silently skipped: it performs no
`setenv` or `unsetenv` call, leaves the environment unchanged, and the
remaining entries are processed exactly as if the entry were absent. -/
theorem envp_entry_without_eq_is_skipped (env : EnvMap) (entry : List Char)
    (rest : List (List Char)) (h : '=' ∉ entry) :
    applyEnvEntry env entry = (env, []) ∧
    applyEnvList env (entry :: rest) = applyEnvList env rest := by
  have hs : splitFirstEq entry = none := by
    induction entry with
    | nil => rfl
    | cons c cs ih =>
        have hc : ¬ c = '=' := fun hcc => h (by rw [hcc]; exact List.mem_cons_self _ _)
        have hcs : '=' ∉ cs := fun hm => h (List.mem_cons_of_mem c hm)
        simp [splitFirstEq, hc, ih hcs]
  constructor
  · simp [applyEnvEntry, hs]
  · simp [applyEnvList, applyEnvEntry, hs]

/-- Witness for C9 at the concrete entry `"FOO"`. -/
theorem envp_entry_without_eq_is_skipped_witness :
    applyEnvEntry emptyEnv ("FOO".toList) = (emptyEnv, []) ∧
    applyEnvList emptyEnv ["FOO".toList] = applyEnvList emptyEnv [] :=
  envp_entry_without_eq_is_skipped emptyEnv ("FOO".toList) [] (by decide)

/-- C4: `TERM` is defaulted to `xterm-256color` only when absent (an
existing value is never overwritten), the defaulting happens before the
`envp` overrides, an override entry `TERM=linux` makes the exec-ed child
observe `TERM=linux`, and with no override and no pre-existing `TERM` the
exec-ed child observes the default terminal type. -/
theorem term_default_only_when_absent (env0 : EnvMap) (cwd0 file : List Char)
    (argv : List (List Char)) :
    (∀ v, env0 termKey = some v → applyTermDefault env0 termKey = some v) ∧
    (env0 termKey = none → applyTermDefault env0 termKey = some defaultTermVal) ∧
    (∀ envF cwdF,
        (childRun file argv (some ["TERM=linux".toList]) none env0 cwd0 none none).2
          = ChildOutcome.execed envF cwdF → envF termKey = some ("linux".toList)) ∧
    (env0 termKey = none → ∀ envF cwdF,
        (childRun file argv none none env0 cwd0 none none).2
          = ChildOutcome.execed envF cwdF → envF termKey = some defaultTermVal) := by
  refine ⟨?_, ?_, ?_, ?_⟩
  · intro v hv
    simp [applyTermDefault, hv]
  · intro h0
    simp [applyTermDefault, h0, setenvKeep, setenvOverwrite]
  · intro envF cwdF h
    have hred : (childRun file argv (some ["TERM=linux".toList]) none env0 cwd0 none none).2
        = ChildOutcome.execed
            ((applyEnvList (applyTermDefault env0) ["TERM=linux".toList]).1) cwd0 := rfl
    rw [hred] at h
    injection h with h1 h2
    rw [← h1]
    rfl
  · intro h0 envF cwdF h
    have hred : (childRun file argv none none env0 cwd0 none none).2
        = ChildOutcome.execed (applyTermDefault env0) cwd0 := rfl
    rw [hred] at h
    injection h with h1 h2
    rw [← h1]
    simp [applyTermDefault, h0, setenvKeep, setenvOverwrite]

/-- Witness for C4: in the empty environment, the override `TERM=linux`
is observed, and the default is applied when `TERM` is absent. -/
theorem term_default_only_when_absent_witness :
    (applyEnvList (applyTermDefault emptyEnv) ["TERM=linux".toList]).1 termKey
        = some ("linux".toList) ∧
    applyTermDefault emptyEnv termKey = some defaultTermVal := by
  constructor
  · exact (term_default_only_when_absent emptyEnv [] ("sh".toList) []).2.2.1 _ [] rfl
  · exact (term_default_only_when_absent emptyEnv [] ("sh".toList) []).2.1 rfl

end PortaPty

namespace PortaPty

/-! ## Child-path claims -/

/-- The chdir step of the child branch is either skipped (null or empty
working directory) or succeeds. -/
def chdirStepOk (working_dir : Option (List Char)) (chdirErr : Option Nat) : Prop :=
  match working_dir with
  | some d => d ≠ [] → chdirErr = none
  | none => True

/-- C2: every failure on the child path is terminal to the child, with
the observed OS error code as exit status: a failing `chdir` (for a
non-null, non-empty working directory) yields `_exit(errno)`, a failing
`execvp` yields `_exit(errno)`, and in no case does control return past
`pty_spawn` into caller code. -/
theorem child_failures_are_terminal (file : List Char) (argv : List (List Char))
    (envp : Option (List (List Char))) (wd : Option (List Char))
    (env0 : EnvMap) (cwd0 : List Char) (chdirErr execErr : Option Nat) :
    ((childRun file argv envp wd env0 cwd0 chdirErr execErr).2 ≠ ChildOutcome.returned) ∧
    (∀ d e, wd = some d → d ≠ [] → chdirErr = some e →
        (childRun file argv envp wd env0 cwd0 chdirErr execErr).2 = ChildOutcome.exited e) ∧
    (∀ e, execErr = some e → chdirStepOk wd chdirErr →
        (childRun file argv envp wd env0 cwd0 chdirErr execErr).2 = ChildOutcome.exited e) := by
  refine ⟨?_, ?_, ?_⟩
  · cases wd with
    | none => cases execErr <;> simp [childRun, childAfterChdir]
    | some d =>
        by_cases hd : d = []
        · subst hd
          cases execErr <;> simp [childRun, childAfterChdir]
        · cases chdirErr with
          | some e => simp [childRun, hd]
          | none => cases execErr <;> simp [childRun, childAfterChdir, hd]
  · rintro d e rfl hd rfl
    simp [childRun, hd]
  · rintro e rfl hok
    cases wd with
    | none => simp [childRun, childAfterChdir]
    | some d =>
        by_cases hd : d = []
        · subst hd
          simp [childRun, childAfterChdir]
        · have hc : chdirErr = none := hok hd
          subst hc
          simp [childRun, childAfterChdir, hd]

/-- Witness for C2: with working directory `/tmp` and a `chdir` failing
with `errno = 2`, the child exits with status 2. -/
theorem child_failures_are_terminal_witness :
    (childRun ("sh".toList) [] none (some ("/tmp".toList)) emptyEnv [] (some 2) none).2
      = ChildOutcome.exited 2 :=
  (child_failures_are_terminal ("sh".toList) [] none (some ("/tmp".toList)) emptyEnv []
    (some 2) none).2.1 ("/tmp".toList) 2 rfl (by decide) rfl

/-! ## Temporal ordering of the child branch -/

/-- Configuration events: working-directory change and environment
mutation.  Image replacement and termination are not configuration. -/
def isConfigEv : Ev → Bool
  | Ev.chdir _ => true
  | Ev.setenv _ _ _ => true
  | Ev.unsetenv _ => true
  | Ev.exec _ _ => false
  | Ev.exit _ => false

theorem applyEnvList_events_config (entries : List (List Char)) (env : EnvMap) :
    ∀ ev ∈ (applyEnvList env entries).2, isConfigEv ev = true := by
  induction entries generalizing env with
  | nil =>
      intro ev hm
      simp [applyEnvList] at hm
  | cons e rest ih =>
      intro ev hm
      simp only [applyEnvList, List.mem_append] at hm
      rcases hm with hm | hm
      · rcases hs : splitFirstEq e with _ | kv
        · simp [applyEnvEntry, hs] at hm
        · by_cases hv : kv.2 = [] <;>
            simp [applyEnvEntry, hs, hv] at hm <;> simp [hm, isConfigEv]
      · exact ih _ ev hm

theorem childAfterChdir_split (file : List Char) (argv : List (List Char))
    (envp : Option (List (List Char))) (env0 : EnvMap) (cwd : List Char)
    (execErr : Option Nat) :
    ∃ cfg rest,
      (childAfterChdir file argv envp env0 cwd execErr).1 = cfg ++ rest ∧
      (∀ ev ∈ cfg, isConfigEv ev = true) ∧
      (∀ ev ∈ rest, isConfigEv ev = false) ∧
      (∀ ev ∈ rest, ev = Ev.exec file argv ∨ ∃ c, ev = Ev.exit c) := by
  have hcfg : ∀ ev ∈ (if env0 termKey = none
        then [Ev.setenv termKey defaultTermVal false] else [])
      ++ (applyEnvList (applyTermDefault env0)
            (match envp with | some l => l | none => [])).2,
      isConfigEv ev = true := by
    intro ev hm
    rcases List.mem_append.mp hm with hm | hm
    · by_cases h0 : env0 termKey = none <;> simp [h0] at hm
      simp [hm, isConfigEv]
    · exact applyEnvList_events_config _ _ ev hm
  cases execErr with
  | some e =>
      refine ⟨_, [Ev.exec file argv, Ev.exit e], ?_, hcfg, ?_, ?_⟩
      · simp [childAfterChdir, List.append_assoc]
      · intro ev hm
        rcases List.mem_cons.mp hm with hm | hm
        · simp [hm, isConfigEv]
        · simp only [List.mem_singleton] at hm
          simp [hm, isConfigEv]
      · intro ev hm
        rcases List.mem_cons.mp hm with hm | hm
        · exact Or.inl hm
        · simp only [List.mem_singleton] at hm
          exact Or.inr ⟨e, hm⟩
  | none =>
      refine ⟨_, [Ev.exec file argv], ?_, hcfg, ?_, ?_⟩
      · simp [childAfterChdir, List.append_assoc]
      · intro ev hm
        simp only [List.mem_singleton] at hm
        simp [hm, isConfigEv]
      · intro ev hm
        simp only [List.mem_singleton] at hm
        exact Or.inl hm

/-- C6: in every execution of the child branch, the trace splits into a
configuration part (working-directory change and environment mutation)
followed only by image replacement and/or termination: all configuration
is complete strictly before `execvp`, and no event after image
replacement is a configuration event.  (The terminal-attribute and
window-size configuration is applied by `forkpty` itself, before the
child branch starts.) -/
theorem child_config_strictly_before_exec (file : List Char)
    (argv : List (List Char)) (envp : Option (List (List Char)))
    (wd : Option (List Char)) (env0 : EnvMap) (cwd0 : List Char)
    (chdirErr execErr : Option Nat) :
    ∃ cfg rest,
      (childRun file argv envp wd env0 cwd0 chdirErr execErr).1 = cfg ++ rest ∧
      (∀ ev ∈ cfg, isConfigEv ev = true) ∧
      (∀ ev ∈ rest, isConfigEv ev = false) ∧
      (∀ ev ∈ rest, ev = Ev.exec file argv ∨ ∃ c, ev = Ev.exit c) := by
  cases wd with
  | none =>
      simpa [childRun] using childAfterChdir_split file argv envp env0 cwd0 execErr
  | some d =>
      by_cases hd : d = []
      · subst hd
        simpa [childRun] using childAfterChdir_split file argv envp env0 cwd0 execErr
      · cases chdirErr with
        | some e =>
            refine ⟨[Ev.chdir d], [Ev.exit e], ?_, ?_, ?_, ?_⟩
            · simp [childRun, hd]
            · intro ev hm
              simp only [List.mem_singleton] at hm
              simp [hm, isConfigEv]
            · intro ev hm
              simp only [List.mem_singleton] at hm
              simp [hm, isConfigEv]
            · intro ev hm
              simp only [List.mem_singleton] at hm
              exact Or.inr ⟨e, hm⟩
        | none =>
            obtain ⟨cfg, rest, heq, hcfg, hrest, hshape⟩ :=
              childAfterChdir_split file argv envp env0 d execErr
            refine ⟨Ev.chdir d :: cfg, rest, ?_, ?_, hrest, hshape⟩
            · simp [childRun, hd, heq]
            · intro ev hm
              rcases List.mem_cons.mp hm with hm | hm
              · simp [hm, isConfigEv]
              · exact hcfg ev hm

end PortaPty

namespace PortaPty

/-! ## Termios translation claims -/

/-- C5: a supplied `pty_termios_t` is translated into the native termios
by copying the four mode-flag words verbatim, copying the
control-character array up to `min NCCS 32`, and setting the input and
output baud rates via `cfsetispeed` / `cfsetospeed`; the translated
structure is exactly the one `pty_spawn` passes to `forkpty`, which
applies it to the slave side before image replacement. -/
theorem termios_translation_passed_to_forkpty
    (nccs : Nat) (t : pty_termios_t) (file : List Char)
    (argv : List (List Char)) (envp : Option (List (List Char)))
    (wd : Option (List Char)) (ws : Option pty_winsize_t)
    (env0 : EnvMap) (cwd0 : List Char) (fork : ForkOutcome)
    (chdirErr execErr : Option Nat)
    (h : t.c_cc.length = 32) :
    (pty_spawn nccs file argv envp wd (some t) ws env0 cwd0 fork chdirErr execErr).termArg
        = some (translateTermios nccs t) ∧
    (translateTermios nccs t).c_iflag = t.c_iflag ∧
    (translateTermios nccs t).c_oflag = t.c_oflag ∧
    (translateTermios nccs t).c_cflag = t.c_cflag ∧
    (translateTermios nccs t).c_lflag = t.c_lflag ∧
    (translateTermios nccs t).c_cc.take (min nccs 32) = t.c_cc.take (min nccs 32) ∧
    (translateTermios nccs t).c_cc.length = nccs ∧
    (translateTermios nccs t).c_ispeed = t.c_ispeed ∧
    (translateTermios nccs t).c_ospeed = t.c_ospeed := by
  have hcc : (translateTermios nccs t).c_cc
      = t.c_cc.take (min nccs 32) ++ (List.replicate nccs (0 : Nat)).drop (min nccs 32) :=
    rfl
  have hlen : (t.c_cc.take (min nccs 32)).length = min nccs 32 := by
    rw [List.length_take, h]
    omega
  refine ⟨?_, rfl, rfl, rfl, rfl, ?_, ?_, rfl, rfl⟩
  · cases fork <;> rfl
  · rw [hcc, List.take_left' hlen]
  · rw [hcc, List.length_append, hlen, List.length_drop, List.length_replicate]
    omega

/-- A concrete caller-supplied termios used by the witnesses. -/
def exTermios : pty_termios_t :=
  { c_iflag := 1, c_oflag := 2, c_cflag := 3, c_lflag := 4,
    c_cc := List.replicate 32 5, c_ispeed := 6, c_ospeed := 7 }

/-- Witness for C5 at a platform with `NCCS = 20` and a concrete termios. -/
theorem termios_translation_passed_to_forkpty_witness :
    (pty_spawn 20 ("sh".toList) [] none none (some exTermios) none emptyEnv []
        (ForkOutcome.fail 11) none none).termArg = some (translateTermios 20 exTermios) ∧
    (translateTermios 20 exTermios).c_iflag = exTermios.c_iflag ∧
    (translateTermios 20 exTermios).c_cc.take (min 20 32)
        = exTermios.c_cc.take (min 20 32) := by
  have hx := termios_translation_passed_to_forkpty 20 exTermios ("sh".toList) [] none
    none none emptyEnv [] (ForkOutcome.fail 11) none none (by decide)
  exact ⟨hx.1, hx.2.1, hx.2.2.2.2.2.1⟩

/-- C10: the native termios built by `pty_spawn` is zero-initialized
before the caller fields are copied in, so every field not among the four
flag words, the copied control-character slots, and the two baud rates is
zero: the line-discipline field is zero and the control-character slots
past `min NCCS 32` are all zero — nothing is inherited from the driver. -/
theorem termios_uncopied_fields_are_zero (nccs : Nat) (t : pty_termios_t)
    (h : t.c_cc.length = 32) :
    (translateTermios nccs t).c_line = 0 ∧
    (translateTermios nccs t).c_cc.drop (min nccs 32)
        = List.replicate (nccs - min nccs 32) 0 := by
  have hcc : (translateTermios nccs t).c_cc
      = t.c_cc.take (min nccs 32) ++ (List.replicate nccs (0 : Nat)).drop (min nccs 32) :=
    rfl
  have hlen : (t.c_cc.take (min nccs 32)).length = min nccs 32 := by
    rw [List.length_take, h]
    omega
  refine ⟨rfl, ?_⟩
  rw [hcc, List.drop_left' hlen, List.drop_replicate]

/-- Witness for C10 at `NCCS = 20`: slots 20..31 were truncated and the
native structure carries no nonzero slot beyond the copied ones. -/
theorem termios_uncopied_fields_are_zero_witness :
    (translateTermios 20 exTermios).c_line = 0 ∧
    (translateTermios 20 exTermios).c_cc.drop (min 20 32)
        = List.replicate (20 - min 20 32) 0 :=
  termios_uncopied_fields_are_zero 20 exTermios (by decide)

end PortaPty
